import Mathlib

/-!
Shallow embedding of the DHT11 single-wire pulse-timing decoder from
`Dht11.cpp`.  Machine integers are modelled as `Nat` with explicit
reduction modulo `2 ^ 32` (for `uint32_t` quantities) and modulo `256`
(for the bytes of the 5-byte frame buffer); `float` values are modelled
as exact rationals.
-/

namespace Dht11

/-- Modulus of `uint32_t` arithmetic (the numeral is `2 ^ 32`). -/
def U32 : Nat := 4294967296

/-- Modelled from the spec: the constant `MIN_INTERVAL` lives in the
missing header `Dht11.h`; the spec fixes the minimum re-sample
(debounce) interval at 2000 ms. -/
def MIN_INTERVAL : Nat := 2000

/-- `uint32_t` subtraction `a - b` with wrap-around, as in the source
expression `millis() - _lastreadtime`. -/
def sub32 (a b : Nat) : Nat := (a + (U32 - b % U32)) % U32

/-- The decoder state owned by `Dht11`: `_lastreadtime`, `_lastresult`
and the 5-byte buffer `data`. -/
structure DhtState where
  lastreadtime : Nat
  lastresult : Bool
  data : List Nat
deriving DecidableEq

/-- The pulse environment observed during one hardware attempt: the two
start-signal pulse counts returned by `expectPulse(LOW)` and
`expectPulse(HIGH)`, and the 80 data pulse counts `cycles[0..79]`
(indexed by a function). -/
structure Pulses where
  startLow : Nat
  startHigh : Nat
  cycles : Nat → Nat

/-- One iteration of the bit loop body of `Dht11::_read`:
`data[i/8] <<= 1; if (highCycles > lowCycles) data[i/8] |= 1;`
acting on one byte (stored values are reduced mod 256). -/
def decodeStep (d lowCycles highCycles : Nat) : Nat :=
  if highCycles > lowCycles then ((d <<< 1) % 256) ||| 1 else (d <<< 1) % 256

/-- The 40-bit decode loop of `Dht11::_read` over the listed bit
indices: returns the final byte buffer and `true`, or the partially
written buffer and `false` when a pulse sample is the timeout
sentinel 0. -/
def decodeBits (cycles : Nat → Nat) : List Nat → List Nat → List Nat × Bool
  | [], d => (d, true)
  | i :: rest, d =>
    if cycles (2 * i) = 0 ∨ cycles (2 * i + 1) = 0 then (d, false)
    else decodeBits cycles rest
      (d.set (i / 8) (decodeStep (d.getD (i / 8) 0) (cycles (2 * i)) (cycles (2 * i + 1))))

/-- The checksum test of `Dht11::_read`:
`data[4] == ((data[0] + data[1] + data[2] + data[3]) & 0xFF)`. -/
def checksumOk (d : List Nat) : Bool :=
  d.getD 4 0 == (d.getD 0 0 + d.getD 1 0 + d.getD 2 0 + d.getD 3 0) % 256

/-- One full hardware attempt of `Dht11::_read` (everything after the
rate-limit check): `_lastreadtime` is set to the current time, the
buffer is reset to zero and then filled by the decode loop; the result
is the updated state together with the boolean result. -/
def dhtReadFresh (t : Nat) (p : Pulses) : DhtState × Bool :=
  if p.startLow = 0 then (⟨t % U32, false, [0, 0, 0, 0, 0]⟩, false)
  else if p.startHigh = 0 then (⟨t % U32, false, [0, 0, 0, 0, 0]⟩, false)
  else if (decodeBits p.cycles (List.range 40) [0, 0, 0, 0, 0]).2 = true then
    if checksumOk (decodeBits p.cycles (List.range 40) [0, 0, 0, 0, 0]).1 = true then
      (⟨t % U32, true, (decodeBits p.cycles (List.range 40) [0, 0, 0, 0, 0]).1⟩, true)
    else
      (⟨t % U32, false, (decodeBits p.cycles (List.range 40) [0, 0, 0, 0, 0]).1⟩, false)
  else (⟨t % U32, false, (decodeBits p.cycles (List.range 40) [0, 0, 0, 0, 0]).1⟩, false)

/-- `Dht11::_read` at clock value `t` with pulse environment `p`:
returns the updated state, the boolean result, and whether the hardware
path was taken (`false` on the cached early return). -/
def dhtRead (st : DhtState) (t : Nat) (p : Pulses) : DhtState × Bool × Bool :=
  if sub32 t st.lastreadtime < 2000 then (st, st.lastresult, false)
  else ((dhtReadFresh t p).1, (dhtReadFresh t p).2, true)

/-- `Dht11::begin`: `_lastreadtime = -(MIN_INTERVAL)` under `uint32_t`
wrap-around (the pin-mode call has no counterpart in the state). -/
def beginState (st : DhtState) : DhtState :=
  { st with lastreadtime := U32 - MIN_INTERVAL }

/-- Loop of `Dht11::expectPulse`: `c` is the current value of `count`
(also the index of the next pin poll); the second argument is the fuel
`maxcycles + 1 - c`.  The loop reads `trace c`, exits returning `c`
when the pin is no longer at `level`, and yields the sentinel 0 when
`count` reaches `_maxcycles` while the pin is still at `level`. -/
def expectPulseAux (trace : Nat → Bool) (level : Bool) : Nat → Nat → Nat
  | _, 0 => 0
  | c, fuel + 1 => if trace c = level then expectPulseAux trace level (c + 1) fuel else c

/-- `Dht11::expectPulse(level)` against pin trace `trace` (the pin
level seen by the k-th `digitalRead`) with timeout budget `maxcycles`
(the `_maxcycles` member computed in the constructor). -/
def expectPulse (trace : Nat → Bool) (level : Bool) (maxcycles : Nat) : Nat :=
  expectPulseAux trace level 0 (maxcycles + 1)

/-- Return codes of `Dht11::read` and `Dht11::readAll`. -/
inductive DeviceErrorCode where
  | DEVICE_OK
  | ERROR_READ
deriving DecidableEq

/-- The retry loop shared by `Dht11::read` and `Dht11::readAll`,
with `_read()` abstracted by its result sequence: `results n` is the
result of the (n+1)-th `_read()` invocation.  The first argument is
the fuel `11 - count`; the other two accumulate the number of
`_read()` invocations and of `delay(100)` calls made so far. -/
def readRetryGo (results : Nat → Bool) : Nat → Nat → Nat → Nat × Nat × DeviceErrorCode
  | 0, calls, delays => (calls, delays, DeviceErrorCode.ERROR_READ)
  | fuel + 1, calls, delays =>
    if results calls = true then (calls + 1, delays, DeviceErrorCode.DEVICE_OK)
    else if fuel = 0 then (calls + 1, delays + 1, DeviceErrorCode.ERROR_READ)
    else readRetryGo results fuel (calls + 1) (delays + 1)

/-- The retry wrapper of `Dht11::read` / `Dht11::readAll`:
`int count = 0; while (!_read()) { count++; delay(100);
if (count > 10) return ERROR_READ; }` — returns the number of
`_read()` invocations, the number of `delay(100)` calls, and the
return code. -/
def readRetry (results : Nat → Bool) : Nat × Nat × DeviceErrorCode :=
  readRetryGo results 11 0 0

/-- `Dht11::convertCtoF`: `c * 1.8 + 32` (float modelled as `ℚ`). -/
def convertCtoF (c : ℚ) : ℚ := c * 1.8 + 32

/-- `Dht11::convertFtoC`: `(f - 32) * 0.55555`. -/
def convertFtoC (f : ℚ) : ℚ := (f - 32) * 0.55555

/-- `Dht11::readTemperature`: `convertCtoF(data[2])`.  The accessor is
modelled as a pure function of the state: it writes nothing. -/
def readTemperature (st : DhtState) : ℚ := convertCtoF (st.data.getD 2 0 : ℚ)

/-- `Dht11::readHumidity`: `data[0]`, likewise a pure accessor. -/
def readHumidity (st : DhtState) : ℚ := (st.data.getD 0 0 : ℚ)

/-- The first assignment of `Dht11::computeHeatIndex` (simple average
formula of Steadman). -/
def simpleHeatIndex (temperature percentHumidity : ℚ) : ℚ :=
  0.5 * (temperature + 61.0 + ((temperature - 68.0) * 1.2) + (percentHumidity * 0.094))

/-- The Rothfusz regression polynomial of `Dht11::computeHeatIndex`. -/
def regressionHeatIndex (temperature percentHumidity : ℚ) : ℚ :=
  -42.379 + 2.04901523 * temperature + 10.14333127 * percentHumidity +
    -0.22475541 * temperature * percentHumidity +
    -0.00683783 * temperature ^ 2 + -0.05481717 * percentHumidity ^ 2 +
    0.00122874 * temperature ^ 2 * percentHumidity +
    0.00085282 * temperature * percentHumidity ^ 2 +
    -0.00000199 * temperature ^ 2 * percentHumidity ^ 2

/-- `Dht11::computeHeatIndex`, with the external `sqrt` library call
abstracted as a function parameter. -/
def computeHeatIndex (sqrtFn : ℚ → ℚ) (temperature percentHumidity : ℚ) : ℚ :=
  if simpleHeatIndex temperature percentHumidity > 79 then
    if percentHumidity < 13 ∧ 80.0 ≤ temperature ∧ temperature ≤ 112.0 then
      regressionHeatIndex temperature percentHumidity -
        ((13.0 - percentHumidity) * 0.25) *
          sqrtFn ((17.0 - |temperature - 95.0|) * 0.05882)
    else if percentHumidity > 85.0 ∧ 80.0 ≤ temperature ∧ temperature ≤ 87.0 then
      regressionHeatIndex temperature percentHumidity +
        ((percentHumidity - 85.0) * 0.1) * ((87.0 - temperature) * 0.2)
    else regressionHeatIndex temperature percentHumidity
  else simpleHeatIndex temperature percentHumidity

/-- Which branch of `computeHeatIndex` produces the returned value. -/
inductive HIBranch where
  | simpleBranch
  | lowHumidity
  | highHumidity
  | regressionOnly
deriving DecidableEq

/-- Branch selector mirroring the `if` conditions of
`computeHeatIndex` exactly. -/
def heatIndexBranch (temperature percentHumidity : ℚ) : HIBranch :=
  if simpleHeatIndex temperature percentHumidity > 79 then
    if percentHumidity < 13 ∧ 80.0 ≤ temperature ∧ temperature ≤ 112.0 then
      HIBranch.lowHumidity
    else if percentHumidity > 85.0 ∧ 80.0 ≤ temperature ∧ temperature ≤ 87.0 then
      HIBranch.highHumidity
    else HIBranch.regressionOnly
  else HIBranch.simpleBranch

/-- The bit decoded at position `i`: 1 exactly when the high pulse
outlasts the low pulse. -/
def bitOf (cycles : Nat → Nat) (i : Nat) : Nat :=
  if cycles (2 * i + 1) > cycles (2 * i) then 1 else 0

/-- MSB-first value of byte `j` of the frame, assembled from the bits
at positions `8*j .. 8*j+7`. -/
def byteVal (cycles : Nat → Nat) (j : Nat) : Nat :=
  ∑ k ∈ Finset.range 8, bitOf cycles (8 * j + k) * 2 ^ (7 - k)

/-- The frame produced by the 40-bit decode loop from the freshly
zeroed buffer. -/
def dhtFrame (cycles : Nat → Nat) : List Nat :=
  (decodeBits cycles (List.range 40) [0, 0, 0, 0, 0]).1

/-! ### Helper lemmas -/

lemma expectPulseAux_zero_of_stays (trace : Nat → Bool) (level : Bool) :
    ∀ fuel c, (∀ k, k < fuel → trace (c + k) = level) →
      expectPulseAux trace level c fuel = 0 := by
  intro fuel
  induction fuel with
  | zero => intro c _; rfl
  | succ f ih =>
    intro c h
    have h0 : trace c = level := by simpa using h 0 (by omega)
    simp only [expectPulseAux, h0, if_true, if_pos]
    exact ih (c + 1) (fun k hk => by
      have hk1 := h (k + 1) (by omega)
      have e : c + (k + 1) = c + 1 + k := by omega
      rwa [e] at hk1)

lemma expectPulseAux_ne_zero (trace : Nat → Bool) (level : Bool) :
    ∀ fuel c, trace c = level → (∃ k, k < fuel ∧ trace (c + k) ≠ level) →
      expectPulseAux trace level c fuel ≠ 0 := by
  intro fuel
  induction fuel with
  | zero =>
    rintro c _ ⟨k, hk, _⟩
    omega
  | succ f ih =>
    rintro c hc ⟨k, hk, hkne⟩
    have hk0 : k ≠ 0 := by
      intro h0
      rw [h0] at hkne
      simp at hkne
      exact hkne hc
    obtain ⟨k1, rfl⟩ : ∃ k1, k = k1 + 1 := ⟨k - 1, by omega⟩
    simp only [expectPulseAux, hc, if_pos]
    by_cases h1 : trace (c + 1) = level
    · exact ih (c + 1) h1 ⟨k1, by omega, by
        have e : c + (k1 + 1) = c + 1 + k1 := by omega
        rwa [e] at hkne⟩
    · obtain ⟨f1, rfl⟩ : ∃ f1, f = f1 + 1 := ⟨f - 1, by omega⟩
      simp [expectPulseAux, h1]

lemma readRetryGo_all_fail (results : Nat → Bool) (hall : ∀ n, results n = false) :
    ∀ fuel calls delays, 0 < fuel →
      readRetryGo results fuel calls delays =
        (calls + fuel, delays + fuel, DeviceErrorCode.ERROR_READ) := by
  intro fuel
  induction fuel with
  | zero => intro _ _ h; omega
  | succ f ih =>
    intro calls delays _
    by_cases hf : f = 0
    · subst hf
      simp [readRetryGo, hall]
    · have := ih (calls + 1) (delays + 1) (by omega)
      simp only [readRetryGo, hall, Bool.false_eq_true, if_false, hf, this]
      have e1 : calls + 1 + f = calls + (f + 1) := by omega
      have e2 : delays + 1 + f = delays + (f + 1) := by omega
      rw [e1, e2]

lemma dhtReadFresh_lastreadtime (t : Nat) (p : Pulses) :
    (dhtReadFresh t p).1.lastreadtime = t % U32 := by
  unfold dhtReadFresh
  split
  · rfl
  · split
    · rfl
    · split
      · split
        · rfl
        · rfl
      · rfl

lemma dhtReadFresh_lastresult (t : Nat) (p : Pulses) :
    (dhtReadFresh t p).1.lastresult = (dhtReadFresh t p).2 := by
  unfold dhtReadFresh
  split
  · rfl
  · split
    · rfl
    · split
      · split
        · rfl
        · rfl
      · rfl

lemma decodeBits_complete (cycles : Nat → Nat) :
    ∀ (l : List Nat) (d : List Nat),
      (∀ i ∈ l, cycles (2 * i) ≠ 0 ∧ cycles (2 * i + 1) ≠ 0) →
      (decodeBits cycles l d).2 = true := by
  intro l
  induction l with
  | nil => intro d _; rfl
  | cons i rest ih =>
    intro d h
    have hi := h i (List.mem_cons_self i rest)
    simp only [decodeBits]
    rw [if_neg (by push_neg; exact hi)]
    exact ih _ (fun j hj => h j (List.mem_cons_of_mem i hj))

lemma two_mul_lor_one (m : Nat) : 2 * m ||| 1 = 2 * m + 1 := by
  apply Nat.eq_of_testBit_eq
  intro i
  cases i with
  | zero =>
    rw [Nat.testBit_lor, Nat.testBit_zero, Nat.testBit_zero, Nat.testBit_zero]
    have h1 : (2 * m + 1) % 2 = 1 := by omega
    have h2 : (1 : Nat) % 2 = 1 := by norm_num
    have h3 : (2 * m) % 2 = 0 := by omega
    rw [h1, h2, h3]
    simp
  | succ i =>
    rw [Nat.testBit_lor, Nat.testBit_add_one, Nat.testBit_add_one, Nat.testBit_add_one]
    have e1 : 2 * m / 2 = m := by omega
    have e2 : (2 * m + 1) / 2 = m := by omega
    have e3 : (1 : Nat) / 2 = 0 := by norm_num
    rw [e1, e2, e3]
    simp

lemma bitOf_le_one (cycles : Nat → Nat) (i : Nat) : bitOf cycles i ≤ 1 := by
  unfold bitOf
  split
  · omega
  · omega

lemma decodeStep_eq_bit (cycles : Nat → Nat) (v i : Nat) :
    decodeStep v (cycles (2 * i)) (cycles (2 * i + 1)) = v * 2 % 256 + bitOf cycles i := by
  unfold decodeStep bitOf
  rw [Nat.shiftLeft_eq, pow_one]
  by_cases h : cycles (2 * i + 1) > cycles (2 * i)
  · rw [if_pos h, if_pos h]
    have he : v * 2 % 256 = 2 * (v * 2 % 256 / 2) := by omega
    rw [he, two_mul_lor_one]
  · rw [if_neg h, if_neg h]
    omega

lemma getD_set_self : ∀ (l : List Nat) (j w : Nat), j < l.length → (l.set j w).getD j 0 = w := by
  intro l
  induction l with
  | nil =>
    intro j w h
    simp at h
  | cons a as ih =>
    intro j w h
    cases j with
    | zero => rfl
    | succ j =>
      simp only [List.set, List.getD_cons_succ]
      exact ih j w (by simpa using h)

lemma set_getD_self : ∀ (l : List Nat) (j : Nat), j < l.length → l.set j (l.getD j 0) = l := by
  intro l
  induction l with
  | nil =>
    intro j h
    simp at h
  | cons a as ih =>
    intro j h
    cases j with
    | zero => rfl
    | succ j =>
      simp only [List.getD_cons_succ, List.set]
      rw [ih j (by simpa using h)]

lemma decodeBits_append (cycles : Nat → Nat) :
    ∀ (l1 l2 : List Nat) (d : List Nat),
      decodeBits cycles (l1 ++ l2) d =
        if (decodeBits cycles l1 d).2 = true then
          decodeBits cycles l2 (decodeBits cycles l1 d).1
        else decodeBits cycles l1 d := by
  intro l1
  induction l1 with
  | nil =>
    intro l2 d
    simp [decodeBits]
  | cons i rest ih =>
    intro l2 d
    simp only [List.cons_append, decodeBits]
    by_cases h : cycles (2 * i) = 0 ∨ cycles (2 * i + 1) = 0
    · rw [if_pos h, if_pos h]
      simp
    · rw [if_neg h, if_neg h]
      exact ih l2 _

lemma decodeBits_append_ok (cycles : Nat → Nat) (l1 l2 d d1 : List Nat)
    (h : decodeBits cycles l1 d = (d1, true)) :
    decodeBits cycles (l1 ++ l2) d = decodeBits cycles l2 d1 := by
  rw [decodeBits_append, h]
  simp

lemma decodeBits_chunk (cycles : Nat → Nat) (j : Nat) :
    ∀ (ks : List Nat) (d : List Nat) (v : Nat), j < d.length → d.getD j 0 = v →
      (∀ k ∈ ks, k < 8 ∧ cycles (2 * (8 * j + k)) ≠ 0 ∧ cycles (2 * (8 * j + k) + 1) ≠ 0) →
      decodeBits cycles (ks.map (fun k => 8 * j + k)) d =
        (d.set j (ks.foldl
          (fun v k => decodeStep v (cycles (2 * (8 * j + k))) (cycles (2 * (8 * j + k) + 1)))
          v), true) := by
  intro ks
  induction ks with
  | nil =>
    intro d v hj hv _
    simp only [List.map_nil, decodeBits, List.foldl_nil]
    rw [← hv, set_getD_self d j hj]
  | cons k ks ih =>
    intro d v hj hv hks
    obtain ⟨hk8, hnz1, hnz2⟩ := hks k (List.mem_cons_self k ks)
    simp only [List.map_cons, decodeBits, List.foldl_cons]
    rw [if_neg (by push_neg; exact ⟨hnz1, hnz2⟩)]
    have hdiv : (8 * j + k) / 8 = j := by omega
    rw [hdiv, hv]
    rw [ih (d.set j (decodeStep v (cycles (2 * (8 * j + k))) (cycles (2 * (8 * j + k) + 1))))
      (decodeStep v (cycles (2 * (8 * j + k))) (cycles (2 * (8 * j + k) + 1)))
      (by simpa using hj)
      (getD_set_self d j _ hj)
      (fun k2 hk2 => hks k2 (List.mem_cons_of_mem k hk2))]
    rw [List.set_set]

lemma foldl_byte (cycles : Nat → Nat) (j : Nat) :
    (List.range 8).foldl
      (fun v k => decodeStep v (cycles (2 * (8 * j + k))) (cycles (2 * (8 * j + k) + 1)))
      0 = byteVal cycles j := by
  have h0 := bitOf_le_one cycles (8 * j)
  have h1 := bitOf_le_one cycles (8 * j + 1)
  have h2 := bitOf_le_one cycles (8 * j + 2)
  have h3 := bitOf_le_one cycles (8 * j + 3)
  have h4 := bitOf_le_one cycles (8 * j + 4)
  have h5 := bitOf_le_one cycles (8 * j + 5)
  have h6 := bitOf_le_one cycles (8 * j + 6)
  have h7 := bitOf_le_one cycles (8 * j + 7)
  have hr : List.range 8 = [0, 1, 2, 3, 4, 5, 6, 7] := rfl
  rw [hr]
  simp only [List.foldl_cons, List.foldl_nil, decodeStep_eq_bit]
  simp only [byteVal, Finset.sum_range_succ, Finset.sum_range_zero]
  norm_num
  omega

lemma decodeBits_byte (cycles : Nat → Nat) (j : Nat) (d : List Nat) (hj : j < d.length)
    (hd : d.getD j 0 = 0)
    (hnzj : ∀ k, k < 8 → cycles (2 * (8 * j + k)) ≠ 0 ∧ cycles (2 * (8 * j + k) + 1) ≠ 0) :
    decodeBits cycles ((List.range 8).map (fun k => 8 * j + k)) d =
      (d.set j (byteVal cycles j), true) := by
  rw [decodeBits_chunk cycles j (List.range 8) d 0 hj hd
    (fun k hk => ⟨List.mem_range.mp hk, (hnzj k (List.mem_range.mp hk)).1,
      (hnzj k (List.mem_range.mp hk)).2⟩)]
  rw [foldl_byte]

lemma decodeStep_scale (c : Nat) (hc : 0 < c) (v l h : Nat) :
    decodeStep v (c * l) (c * h) = decodeStep v l h := by
  unfold decodeStep
  by_cases hlt : h > l
  · rw [if_pos hlt, if_pos ((Nat.mul_lt_mul_left hc).mpr hlt)]
  · rw [if_neg hlt, if_neg (fun hx => hlt (Nat.lt_of_mul_lt_mul_left hx))]

lemma decodeBits_scale (cycles : Nat → Nat) (c : Nat) (hc : 0 < c) :
    ∀ (l : List Nat) (d : List Nat),
      decodeBits (fun k => c * cycles k) l d = decodeBits cycles l d := by
  intro l
  induction l with
  | nil => intro d; rfl
  | cons i rest ih =>
    intro d
    simp only [decodeBits]
    have hiff : (c * cycles (2 * i) = 0 ∨ c * cycles (2 * i + 1) = 0) ↔
        (cycles (2 * i) = 0 ∨ cycles (2 * i + 1) = 0) := by
      rw [Nat.mul_eq_zero, Nat.mul_eq_zero]
      omega
    by_cases h : cycles (2 * i) = 0 ∨ cycles (2 * i + 1) = 0
    · rw [if_pos (hiff.mpr h), if_pos h]
    · rw [if_neg (fun hx => h (hiff.mp hx)), if_neg h]
      rw [decodeStep_scale c hc]
      exact ih _

lemma dhtFrame_bytes (cycles : Nat → Nat) (hnz : ∀ k, k < 80 → cycles k ≠ 0) :
    dhtFrame cycles =
      [byteVal cycles 0, byteVal cycles 1, byteVal cycles 2, byteVal cycles 3,
        byteVal cycles 4] := by
  have h0 : ∀ k, k < 8 → cycles (2 * (8 * 0 + k)) ≠ 0 ∧ cycles (2 * (8 * 0 + k) + 1) ≠ 0 :=
    fun k hk => ⟨hnz _ (by omega), hnz _ (by omega)⟩
  have h1 : ∀ k, k < 8 → cycles (2 * (8 * 1 + k)) ≠ 0 ∧ cycles (2 * (8 * 1 + k) + 1) ≠ 0 :=
    fun k hk => ⟨hnz _ (by omega), hnz _ (by omega)⟩
  have h2 : ∀ k, k < 8 → cycles (2 * (8 * 2 + k)) ≠ 0 ∧ cycles (2 * (8 * 2 + k) + 1) ≠ 0 :=
    fun k hk => ⟨hnz _ (by omega), hnz _ (by omega)⟩
  have h3 : ∀ k, k < 8 → cycles (2 * (8 * 3 + k)) ≠ 0 ∧ cycles (2 * (8 * 3 + k) + 1) ≠ 0 :=
    fun k hk => ⟨hnz _ (by omega), hnz _ (by omega)⟩
  have h4 : ∀ k, k < 8 → cycles (2 * (8 * 4 + k)) ≠ 0 ∧ cycles (2 * (8 * 4 + k) + 1) ≠ 0 :=
    fun k hk => ⟨hnz _ (by omega), hnz _ (by omega)⟩
  have s0 : decodeBits cycles ((List.range 8).map (fun k => 8 * 0 + k)) [0, 0, 0, 0, 0] =
      ([byteVal cycles 0, 0, 0, 0, 0], true) := by
    rw [decodeBits_byte cycles 0 [0, 0, 0, 0, 0] (by decide) (by decide) h0]
    rfl
  have s1 : decodeBits cycles ((List.range 8).map (fun k => 8 * 1 + k))
      [byteVal cycles 0, 0, 0, 0, 0] =
      ([byteVal cycles 0, byteVal cycles 1, 0, 0, 0], true) := by
    rw [decodeBits_byte cycles 1 [byteVal cycles 0, 0, 0, 0, 0] (by simp) rfl h1]
    rfl
  have s2 : decodeBits cycles ((List.range 8).map (fun k => 8 * 2 + k))
      [byteVal cycles 0, byteVal cycles 1, 0, 0, 0] =
      ([byteVal cycles 0, byteVal cycles 1, byteVal cycles 2, 0, 0], true) := by
    rw [decodeBits_byte cycles 2 [byteVal cycles 0, byteVal cycles 1, 0, 0, 0]
      (by simp) rfl h2]
    rfl
  have s3 : decodeBits cycles ((List.range 8).map (fun k => 8 * 3 + k))
      [byteVal cycles 0, byteVal cycles 1, byteVal cycles 2, 0, 0] =
      ([byteVal cycles 0, byteVal cycles 1, byteVal cycles 2, byteVal cycles 3, 0], true) := by
    rw [decodeBits_byte cycles 3 [byteVal cycles 0, byteVal cycles 1, byteVal cycles 2, 0, 0]
      (by simp) rfl h3]
    rfl
  have s4 : decodeBits cycles ((List.range 8).map (fun k => 8 * 4 + k))
      [byteVal cycles 0, byteVal cycles 1, byteVal cycles 2, byteVal cycles 3, 0] =
      ([byteVal cycles 0, byteVal cycles 1, byteVal cycles 2, byteVal cycles 3,
        byteVal cycles 4], true) := by
    rw [decodeBits_byte cycles 4
      [byteVal cycles 0, byteVal cycles 1, byteVal cycles 2, byteVal cycles 3, 0]
      (by simp) rfl h4]
    rfl
  have hsplit : List.range 40 =
      ((List.range 8).map (fun k => 8 * 0 + k)) ++
      (((List.range 8).map (fun k => 8 * 1 + k)) ++
      (((List.range 8).map (fun k => 8 * 2 + k)) ++
      (((List.range 8).map (fun k => 8 * 3 + k)) ++
      ((List.range 8).map (fun k => 8 * 4 + k))))) := by decide
  unfold dhtFrame
  rw [hsplit]
  rw [decodeBits_append_ok cycles _ _ _ _ s0]
  rw [decodeBits_append_ok cycles _ _ _ _ s1]
  rw [decodeBits_append_ok cycles _ _ _ _ s2]
  rw [decodeBits_append_ok cycles _ _ _ _ s3]
  rw [s4]

/-! ### Claim theorems -/

/-- C3 (corrected): `expectPulse` returns 0 exactly when either the pin
stays at the requested level for the whole timeout budget (a timeout),
or the very first poll already sees the other level (the loop body
never runs and `count` is returned as 0); it returns the strictly
positive number of polls spent at the level in every other case. -/
theorem C3_expectPulse_zero_iff (trace : Nat → Bool) (level : Bool) (maxcycles : Nat) :
    (expectPulse trace level maxcycles = 0 ↔
      (∀ k, k ≤ maxcycles → trace k = level) ∨ trace 0 ≠ level) ∧
    ((trace 0 = level ∧ ∃ k, k ≤ maxcycles ∧ trace k ≠ level) →
      0 < expectPulse trace level maxcycles) := by
  have hne : (trace 0 = level ∧ ∃ k, k ≤ maxcycles ∧ trace k ≠ level) →
      expectPulse trace level maxcycles ≠ 0 := by
    rintro ⟨h0, k, hk, hkne⟩
    exact expectPulseAux_ne_zero trace level (maxcycles + 1) 0 h0
      ⟨k, by omega, by simpa using hkne⟩
  constructor
  · constructor
    · intro h0
      by_contra hcon
      rw [not_or, not_not] at hcon
      obtain ⟨hnotall, h0level⟩ := hcon
      push_neg at hnotall
      obtain ⟨k, hk, hkne⟩ := hnotall
      exact hne ⟨h0level, k, hk, hkne⟩ h0
    · rintro (hall | h0)
      · exact expectPulseAux_zero_of_stays trace level (maxcycles + 1) 0
          (fun k hk => by simpa using hall k (by omega))
      · simp [expectPulse, expectPulseAux, h0]
  · intro h
    have := hne h
    omega

/-- C3 witness: a pin that holds the level for exactly 3 polls yields a
strictly positive count. -/
theorem C3_expectPulse_witness :
    0 < expectPulse (fun k => decide (k < 3)) true 5 :=
  (C3_expectPulse_zero_iff (fun k => decide (k < 3)) true 5).2
    ⟨by decide, 3, by decide, by decide⟩

/-- C3 counterexample: a pin that is not at the requested level on the
very first poll (and changes level during the window, under any reading
of the claim) still yields 0, refuting that 0 is returned exactly on
a no-change timeout and that every other case is strictly positive. -/
theorem C3_expectPulse_counterexample :
    expectPulse (fun k => decide (1 ≤ k)) true 5 = 0 ∧
    ¬ (∀ k, k ≤ 5 → (fun k => decide (1 ≤ k)) k = true) ∧
    (fun k : Nat => decide (1 ≤ k)) 0 ≠ (fun k : Nat => decide (1 ≤ k)) 1 := by
  refine ⟨by decide, by decide, by decide⟩

/-- C5 (corrected): when `_read()` fails on every invocation, the retry
loop of `Dht11::read` / `Dht11::readAll` invokes it exactly 11 times
(not 10), performs a `delay(100)` after each failed attempt, and then
returns `ERROR_READ`. -/
theorem C5_retry_cap (results : Nat → Bool) (hall : ∀ n, results n = false) :
    readRetry results = (11, 11, DeviceErrorCode.ERROR_READ) := by
  have := readRetryGo_all_fail results hall 11 0 0 (by omega)
  simpa [readRetry] using this

/-- C5 witness: the always-failing result sequence. -/
theorem C5_retry_cap_witness :
    readRetry (fun _ => false) = (11, 11, DeviceErrorCode.ERROR_READ) :=
  C5_retry_cap (fun _ => false) (fun _ => rfl)

/-- C5 counterexample: with an always-failing `_read()`, the number of
invocations is 11, not the 10 stated by the claim. -/
theorem C5_retry_cap_counterexample :
    (readRetry (fun _ => false)).1 = 11 ∧ (readRetry (fun _ => false)).1 ≠ 10 := by
  refine ⟨by decide, by decide⟩

/-- C1 (confirmed): on a non-cached attempt whose start pulses and 80
data pulse samples are all non-zero, the decode inside `_read` succeeds
(returns `true` and sets `_lastresult = true`) if and only if byte 4 of
the decoded frame equals the sum of bytes 0..3 mod 256; a mismatch
yields the failure result. -/
theorem C1_decode_checksum_iff (st : DhtState) (t : Nat) (p : Pulses)
    (hrl : ¬ sub32 t st.lastreadtime < 2000)
    (hsl : p.startLow ≠ 0) (hsh : p.startHigh ≠ 0)
    (hnz : ∀ k, k < 80 → p.cycles k ≠ 0) :
    ((dhtRead st t p).2.1 = true ∧ (dhtRead st t p).1.lastresult = true) ↔
      checksumOk (dhtRead st t p).1.data = true := by
  have hc : (decodeBits p.cycles (List.range 40) [0, 0, 0, 0, 0]).2 = true :=
    decodeBits_complete p.cycles (List.range 40) _ (by
      intro i hi
      have : i < 40 := List.mem_range.mp hi
      exact ⟨hnz _ (by omega), hnz _ (by omega)⟩)
  unfold dhtRead
  rw [if_neg hrl]
  unfold dhtReadFresh
  rw [if_neg hsl, if_neg hsh, if_pos hc]
  by_cases hck : checksumOk (decodeBits p.cycles (List.range 40) [0, 0, 0, 0, 0]).1 = true
  · rw [if_pos hck]
    simp [hck]
  · rw [if_neg hck]
    simp [hck]

/-- C1 witness: all-ones pulse samples decode to the all-zero frame,
whose checksum is valid. -/
theorem C1_decode_checksum_iff_witness :
    (¬ sub32 0 (⟨4294965296, false, [0, 0, 0, 0, 0]⟩ : DhtState).lastreadtime < 2000) ∧
    ((⟨1, 1, fun _ => 1⟩ : Pulses).startLow ≠ 0) ∧
    ((⟨1, 1, fun _ => 1⟩ : Pulses).startHigh ≠ 0) ∧
    (∀ k, k < 80 → (⟨1, 1, fun _ => 1⟩ : Pulses).cycles k ≠ 0) ∧
    (((dhtRead ⟨4294965296, false, [0, 0, 0, 0, 0]⟩ 0 ⟨1, 1, fun _ => 1⟩).2.1 = true ∧
      (dhtRead ⟨4294965296, false, [0, 0, 0, 0, 0]⟩ 0 ⟨1, 1, fun _ => 1⟩).1.lastresult = true) ↔
      checksumOk (dhtRead ⟨4294965296, false, [0, 0, 0, 0, 0]⟩ 0 ⟨1, 1, fun _ => 1⟩).1.data = true) :=
  ⟨by decide, by decide, by decide, by decide,
    C1_decode_checksum_iff ⟨4294965296, false, [0, 0, 0, 0, 0]⟩ 0 ⟨1, 1, fun _ => 1⟩
      (by decide) (by decide) (by decide) (by decide)⟩

/-- C2 (corrected): a call to `_read` made less than 2000 ms after a
call that took the hardware path performs no hardware interaction and
returns exactly the cached `_lastresult`, with the frame and the stored
timestamp unchanged.  (The claim as frozen, over an arbitrary pair of
calls, fails when the first call itself took the cached path.) -/
theorem C2_debounce (st : DhtState) (t1 t2 : Nat) (p1 p2 : Pulses)
    (hhw : (dhtRead st t1 p1).2.2 = true)
    (h12 : t1 ≤ t2) (hlt : t2 - t1 < 2000) (ht2 : t2 < U32) :
    dhtRead (dhtRead st t1 p1).1 t2 p2 =
      ((dhtRead st t1 p1).1, (dhtRead st t1 p1).2.1, false) := by
  have hreal : ¬ sub32 t1 st.lastreadtime < 2000 := by
    intro hcase
    unfold dhtRead at hhw
    rw [if_pos hcase] at hhw
    simp at hhw
  have hst1 : (dhtRead st t1 p1).1 = (dhtReadFresh t1 p1).1 := by
    unfold dhtRead
    rw [if_neg hreal]
  have hres1 : (dhtRead st t1 p1).2.1 = (dhtReadFresh t1 p1).2 := by
    unfold dhtRead
    rw [if_neg hreal]
  have htime : (dhtRead st t1 p1).1.lastreadtime = t1 % U32 := by
    rw [hst1, dhtReadFresh_lastreadtime]
  have ht1 : t1 < U32 := lt_of_le_of_lt h12 ht2
  have hcached : sub32 t2 (dhtRead st t1 p1).1.lastreadtime < 2000 := by
    rw [htime]
    unfold sub32 U32
    unfold U32 at ht1 ht2
    omega
  have hlr : (dhtRead st t1 p1).1.lastresult = (dhtRead st t1 p1).2.1 := by
    rw [hst1, hres1, dhtReadFresh_lastresult]
  rw [dhtRead, if_pos hcached, hlr]

/-- C2 witness: a hardware read at time 0 followed by a call at
time 100 returns the cached result without hardware interaction. -/
theorem C2_debounce_witness :
    ((dhtRead ⟨4294965296, false, [0, 0, 0, 0, 0]⟩ 0 ⟨1, 1, fun _ => 1⟩).2.2 = true) ∧
    ((0 : Nat) ≤ 100) ∧ (100 - 0 < 2000) ∧ (100 < U32) ∧
    dhtRead (dhtRead ⟨4294965296, false, [0, 0, 0, 0, 0]⟩ 0 ⟨1, 1, fun _ => 1⟩).1 100
        ⟨1, 1, fun _ => 1⟩ =
      ((dhtRead ⟨4294965296, false, [0, 0, 0, 0, 0]⟩ 0 ⟨1, 1, fun _ => 1⟩).1,
        (dhtRead ⟨4294965296, false, [0, 0, 0, 0, 0]⟩ 0 ⟨1, 1, fun _ => 1⟩).2.1, false) :=
  ⟨by decide, by decide, by decide, by decide,
    C2_debounce ⟨4294965296, false, [0, 0, 0, 0, 0]⟩ 0 100 ⟨1, 1, fun _ => 1⟩
      ⟨1, 1, fun _ => 1⟩ (by decide) (by decide) (by decide) (by decide)⟩

/-- C2 counterexample: with `_lastreadtime = 0` in the state, a first
call at 1999 ms takes the cached path and a second call only 2 ms later
(at 2001 ms) does take the hardware path — two calls separated by less
than 2000 ms where the second one performs hardware interaction,
refuting the claim as stated for every decoder state. -/
theorem C2_debounce_counterexample :
    (dhtRead ⟨0, false, [0, 0, 0, 0, 0]⟩ 1999 ⟨1, 1, fun _ => 1⟩).2.2 = false ∧
    (dhtRead (dhtRead ⟨0, false, [0, 0, 0, 0, 0]⟩ 1999 ⟨1, 1, fun _ => 1⟩).1 2001
      ⟨1, 1, fun _ => 1⟩).2.2 = true ∧
    2001 - 1999 < 2000 :=
  ⟨by decide, by decide, by decide⟩

/-- C6 (corrected): a non-cached attempt that fails does set
`_lastresult = false`, but the frame is NOT left unchanged: `data` is
reset to zero at the start of the attempt, so the post-attempt frame
depends only on the pulse environment and never on the previous frame
(stale bytes are cleared, not preserved). -/
theorem C6_failure_state (st1 st2 : DhtState) (t : Nat) (p : Pulses)
    (h1 : ¬ sub32 t st1.lastreadtime < 2000)
    (h2 : ¬ sub32 t st2.lastreadtime < 2000) :
    ((dhtRead st1 t p).2.1 = false → (dhtRead st1 t p).1.lastresult = false) ∧
    (dhtRead st1 t p).1.data = (dhtRead st2 t p).1.data := by
  unfold dhtRead
  rw [if_neg h1, if_neg h2]
  refine ⟨?_, rfl⟩
  intro hf
  show (dhtReadFresh t p).1.lastresult = false
  rw [dhtReadFresh_lastresult]
  exact hf

/-- C6 witness: two distinct prior states yield the same frame after a
failed attempt, and the failure sets `_lastresult = false`. -/
theorem C6_failure_state_witness :
    (¬ sub32 5000 (⟨0, true, [1, 2, 3, 4, 10]⟩ : DhtState).lastreadtime < 2000) ∧
    (¬ sub32 5000 (⟨500, false, [9, 9, 9, 9, 9]⟩ : DhtState).lastreadtime < 2000) ∧
    (((dhtRead ⟨0, true, [1, 2, 3, 4, 10]⟩ 5000 ⟨0, 1, fun _ => 1⟩).2.1 = false →
      (dhtRead ⟨0, true, [1, 2, 3, 4, 10]⟩ 5000 ⟨0, 1, fun _ => 1⟩).1.lastresult = false) ∧
      (dhtRead ⟨0, true, [1, 2, 3, 4, 10]⟩ 5000 ⟨0, 1, fun _ => 1⟩).1.data =
        (dhtRead ⟨500, false, [9, 9, 9, 9, 9]⟩ 5000 ⟨0, 1, fun _ => 1⟩).1.data) :=
  ⟨by decide, by decide,
    C6_failure_state ⟨0, true, [1, 2, 3, 4, 10]⟩ ⟨500, false, [9, 9, 9, 9, 9]⟩ 5000
      ⟨0, 1, fun _ => 1⟩ (by decide) (by decide)⟩

/-- C6 counterexample: starting from a state holding the stale frame
[1, 2, 3, 4, 10] of a previous successful run, a failing attempt (start
pulse timeout) leaves the frame equal to [0, 0, 0, 0, 0], not to the
stale bytes — the frame is changed by the failing attempt. -/
theorem C6_failure_counterexample :
    (dhtRead ⟨0, true, [1, 2, 3, 4, 10]⟩ 5000 ⟨0, 1, fun _ => 1⟩).2.1 = false ∧
    (dhtRead ⟨0, true, [1, 2, 3, 4, 10]⟩ 5000 ⟨0, 1, fun _ => 1⟩).1.data = [0, 0, 0, 0, 0] ∧
    [0, 0, 0, 0, 0] ≠ [1, 2, 3, 4, 10] :=
  ⟨by decide, by decide, by decide⟩

/-- C7 (corrected): after `begin` (which stores `-MIN_INTERVAL` under
`uint32_t` wrap-around), the first call to `_read` takes the hardware
path for every clock value below `2^32 - MIN_INTERVAL`; for the last
`MIN_INTERVAL` milliseconds before the 32-bit clock wraps, the wrapping
subtraction falls below 2000 and the cached path is taken instead. -/
theorem C7_first_read_fresh (st : DhtState) (t : Nat) (p : Pulses)
    (ht : t < U32 - MIN_INTERVAL) :
    (dhtRead (beginState st) t p).2.2 = true := by
  have hcond : ¬ sub32 t (beginState st).lastreadtime < 2000 := by
    show ¬ sub32 t (U32 - MIN_INTERVAL) < 2000
    unfold sub32 U32 MIN_INTERVAL
    unfold U32 MIN_INTERVAL at ht
    omega
  unfold dhtRead
  rw [if_neg hcond]

/-- C7 witness: at clock value 0 the first read is a hardware read. -/
theorem C7_first_read_fresh_witness :
    (0 < U32 - MIN_INTERVAL) ∧
    (dhtRead (beginState ⟨0, false, [0, 0, 0, 0, 0]⟩) 0 ⟨1, 1, fun _ => 1⟩).2.2 = true :=
  ⟨by decide, C7_first_read_fresh ⟨0, false, [0, 0, 0, 0, 0]⟩ 0 ⟨1, 1, fun _ => 1⟩ (by decide)⟩

/-- C7 counterexample: at clock value `2^32 - 1` the wrapping
subtraction `millis() - _lastreadtime` equals 1999 < 2000, so the very
first call after `begin` takes the cached path and performs no hardware
interaction, refuting the claim for every starting clock value. -/
theorem C7_first_read_counterexample :
    (dhtRead (beginState ⟨0, false, [0, 0, 0, 0, 0]⟩) (U32 - 1) ⟨1, 1, fun _ => 1⟩).2.2 = false := by
  decide

/-- C4 (confirmed): with non-zero pulse samples, the decoded frame is
exactly the MSB-first assembly, byte `j` collecting the bits of
positions `8*j .. 8*j+7`, where the bit at position `i` is 1 exactly
when `highCycles > lowCycles`; the decode is invariant under scaling
every pulse count by the same positive factor, and the single-bit rule
gives 0 on (low 50, high 30) and 1 on (low 50, high 70). -/
theorem C4_bit_decode (cycles : Nat → Nat) (hnz : ∀ k, k < 80 → cycles k ≠ 0)
    (c : Nat) (hc : 0 < c) :
    dhtFrame cycles =
      [byteVal cycles 0, byteVal cycles 1, byteVal cycles 2, byteVal cycles 3,
        byteVal cycles 4] ∧
    dhtFrame (fun k => c * cycles k) = dhtFrame cycles ∧
    decodeStep 0 50 30 = 0 ∧ decodeStep 0 50 70 = 1 := by
  refine ⟨dhtFrame_bytes cycles hnz, ?_, by decide, by decide⟩
  unfold dhtFrame
  rw [decodeBits_scale cycles c hc]

/-- C4 witness: the all-ones bit pattern (low 1, high 2 everywhere),
with scale factor 3. -/
theorem C4_bit_decode_witness :
    (∀ k, k < 80 → (fun k : Nat => if k % 2 = 1 then 2 else 1) k ≠ 0) ∧ 0 < 3 ∧
    (dhtFrame (fun k : Nat => if k % 2 = 1 then 2 else 1) =
      [byteVal (fun k : Nat => if k % 2 = 1 then 2 else 1) 0,
        byteVal (fun k : Nat => if k % 2 = 1 then 2 else 1) 1,
        byteVal (fun k : Nat => if k % 2 = 1 then 2 else 1) 2,
        byteVal (fun k : Nat => if k % 2 = 1 then 2 else 1) 3,
        byteVal (fun k : Nat => if k % 2 = 1 then 2 else 1) 4] ∧
    dhtFrame (fun k : Nat => 3 * (if k % 2 = 1 then 2 else 1)) =
      dhtFrame (fun k : Nat => if k % 2 = 1 then 2 else 1) ∧
    decodeStep 0 50 30 = 0 ∧ decodeStep 0 50 70 = 1) :=
  ⟨by decide, by decide,
    C4_bit_decode (fun k : Nat => if k % 2 = 1 then 2 else 1) (by decide) 3 (by decide)⟩

/-- C8 (confirmed): `computeHeatIndex` takes the low-humidity
correction branch at (81, 10), the high-humidity correction branch at
(85, 90), and at temperature 70 with any humidity in [0, 100] it
returns exactly the simple average formula, because that value never
exceeds 79 (float arithmetic modelled as exact rationals, the library
`sqrt` abstracted as a parameter). -/
theorem C8_heat_index_branches (sq : ℚ → ℚ) (h : ℚ) (h0 : 0 ≤ h) (h1 : h ≤ 100) :
    heatIndexBranch 81 10 = HIBranch.lowHumidity ∧
    heatIndexBranch 85 90 = HIBranch.highHumidity ∧
    computeHeatIndex sq 70 h =
      0.5 * (70 + 61.0 + ((70 - 68.0) * 1.2) + (h * 0.094)) := by
  refine ⟨?_, ?_, ?_⟩
  · unfold heatIndexBranch
    rw [if_pos (by unfold simpleHeatIndex; norm_num)]
    rw [if_pos (by norm_num)]
  · unfold heatIndexBranch
    rw [if_pos (by unfold simpleHeatIndex; norm_num)]
    rw [if_neg (by norm_num)]
    rw [if_pos (by norm_num)]
  · have hle : ¬ simpleHeatIndex 70 h > 79 := by
      unfold simpleHeatIndex
      intro hgt
      nlinarith
    unfold computeHeatIndex
    rw [if_neg hle]
    unfold simpleHeatIndex
    rfl

/-- C8 witness: humidity 50 and the identity in place of `sqrt`. -/
theorem C8_heat_index_branches_witness :
    (0 : ℚ) ≤ 50 ∧ (50 : ℚ) ≤ 100 ∧
    (heatIndexBranch 81 10 = HIBranch.lowHumidity ∧
      heatIndexBranch 85 90 = HIBranch.highHumidity ∧
      computeHeatIndex id 70 50 =
        0.5 * (70 + 61.0 + ((70 - 68.0) * 1.2) + ((50 : ℚ) * 0.094))) :=
  ⟨by norm_num, by norm_num, C8_heat_index_branches id 50 (by norm_num) (by norm_num)⟩

/-- C9 (confirmed): `convertCtoF 20 = 68`, converting back gives
exactly 19.9998, and for every representative input with magnitude at
most 100 the round trip `convertFtoC (convertCtoF x)` differs from `x`
by at most 1/1000 (the exact defect is `x / 100000`, since
`1.8 * 0.55555 = 0.99999`). -/
theorem C9_roundtrip_conversion (x : ℚ) (hx : |x| ≤ 100) :
    convertCtoF 20 = 68 ∧ convertFtoC (convertCtoF 20) = 19.9998 ∧
    |convertFtoC (convertCtoF x) - x| ≤ 1 / 1000 := by
  refine ⟨by norm_num [convertCtoF], by norm_num [convertCtoF, convertFtoC], ?_⟩
  have e : convertFtoC (convertCtoF x) - x = x * (-(1 / 100000)) := by
    unfold convertCtoF convertFtoC
    ring
  rw [e, abs_mul]
  have e2 : |(-(1 / 100000) : ℚ)| = 1 / 100000 := by
    rw [abs_neg]
    exact abs_of_pos (by norm_num)
  rw [e2]
  nlinarith [abs_nonneg x]

/-- C9 witness: the representative input 20. -/
theorem C9_roundtrip_conversion_witness :
    |(20 : ℚ)| ≤ 100 ∧
    (convertCtoF 20 = 68 ∧ convertFtoC (convertCtoF 20) = 19.9998 ∧
      |convertFtoC (convertCtoF 20) - 20| ≤ 1 / 1000) :=
  ⟨by norm_num, C9_roundtrip_conversion 20 (by norm_num)⟩

/-- C10 (confirmed): `readTemperature` returns `convertCtoF(data[2])`
and `readHumidity` returns `data[0]`; both accessors depend only on
bytes 0 and 2 of the frame — the fractional bytes `data[1]` and
`data[3]` (and all other state fields) never influence them — and, as
pure functions of the state, they modify nothing. -/
theorem C10_accessors (st st2 : DhtState)
    (h0 : st.data.getD 0 0 = st2.data.getD 0 0)
    (h2 : st.data.getD 2 0 = st2.data.getD 2 0) :
    readTemperature st = convertCtoF (st.data.getD 2 0 : ℚ) ∧
    readHumidity st = (st.data.getD 0 0 : ℚ) ∧
    readTemperature st = readTemperature st2 ∧
    readHumidity st = readHumidity st2 := by
  refine ⟨rfl, rfl, ?_, ?_⟩
  · unfold readTemperature
    rw [h2]
  · unfold readHumidity
    rw [h0]

/-- C10 witness: two states differing in the fractional bytes (and in
every other field) yield identical accessor values. -/
theorem C10_accessors_witness :
    ((⟨0, false, [1, 9, 3, 9, 5]⟩ : DhtState).data.getD 0 0 =
      (⟨7, true, [1, 0, 3, 0, 9]⟩ : DhtState).data.getD 0 0) ∧
    ((⟨0, false, [1, 9, 3, 9, 5]⟩ : DhtState).data.getD 2 0 =
      (⟨7, true, [1, 0, 3, 0, 9]⟩ : DhtState).data.getD 2 0) ∧
    (readTemperature ⟨0, false, [1, 9, 3, 9, 5]⟩ =
        convertCtoF ((⟨0, false, [1, 9, 3, 9, 5]⟩ : DhtState).data.getD 2 0 : ℚ) ∧
      readHumidity ⟨0, false, [1, 9, 3, 9, 5]⟩ =
        ((⟨0, false, [1, 9, 3, 9, 5]⟩ : DhtState).data.getD 0 0 : ℚ) ∧
      readTemperature ⟨0, false, [1, 9, 3, 9, 5]⟩ = readTemperature ⟨7, true, [1, 0, 3, 0, 9]⟩ ∧
      readHumidity ⟨0, false, [1, 9, 3, 9, 5]⟩ = readHumidity ⟨7, true, [1, 0, 3, 0, 9]⟩) :=
  ⟨rfl, rfl, C10_accessors ⟨0, false, [1, 9, 3, 9, 5]⟩ ⟨7, true, [1, 0, 3, 0, 9]⟩ rfl rfl⟩

end Dht11
